import Mathlib

/-!
Verification development for the statistics-generation and schema-validation
engine of the data-validation package. The visible package surface
(tensorflow_data_validation/__init__.py) only re-exports names; the engine
behind that surface (accumulators, combiner generators, schema inference,
schema validation) is modelled here from the specification, faithful to its
words. Numeric values are represented exactly as rationals, so the
floating-point reassociation tolerance of the specification is met with
tolerance zero.
-/

namespace TFDV

/-- Modelled from the spec: a tagged variant type per value slot of a record
batch column (numeric, string/categorical, weighted numeric). A missing slot
is represented by `none` at the `Slot` level. Record decoding from on-disk
formats is an external collaborator and is not modelled. -/
inductive Value
  | num (q : ℚ)
  | str (s : String)
  | wnum (w q : ℚ)
  deriving DecidableEq

/-- One slot of a column: an observed value or an explicit missing marker. -/
abbrev Slot := Option Value

/-- Modelled from the spec: the column of one feature in one record batch. -/
abbrev Column := List Slot

/-- Modelled from the spec: the closed catalog of statistic kinds
(count/presence, numeric, string length, categorical value counts,
quantiles, cross-feature correlation, weighted numeric variant). -/
inductive StatisticKind
  | countPresence
  | numericBasic
  | stringLength
  | categorical
  | quantiles
  | correlation
  | weightedNumeric
  deriving DecidableEq

/-- Accumulator for the count/presence kind: present and missing counters. -/
structure CountAcc where
  present : Nat
  missing : Nat
  deriving DecidableEq

/-- Accumulator for numeric kinds: count, sum, sum of squares, running
min and max, a missing-count side channel and a type-mismatch signal. -/
structure NumericAcc where
  count : Nat
  total : ℚ
  sumSq : ℚ
  minV : Option ℚ
  maxV : Option ℚ
  missing : Nat
  mismatch : Nat
  deriving DecidableEq

/-- Accumulator for categorical value counts: the multiset of observed
values (truncation to top-k happens at finalization, keeping the merge a
plain multiset union), with missing and mismatch side channels. -/
structure CatAcc where
  values : Multiset String
  missing : Nat
  mismatch : Nat
  deriving DecidableEq

/-- Accumulator for the quantile summary: the exact multiset of observed
numeric values (a mergeable summary with error bound zero, within the
bounded-error contract of the spec). -/
structure QuantAcc where
  values : Multiset ℚ
  missing : Nat
  mismatch : Nat
  deriving DecidableEq

/-- Accumulator for weighted numeric statistics: weight sum, weighted sum,
weighted sum of squares, with missing and mismatch side channels. -/
structure WeightedAcc where
  weightSum : ℚ
  weightedTotal : ℚ
  weightedSumSq : ℚ
  missing : Nat
  mismatch : Nat
  deriving DecidableEq

/-- Minimum of two optional rationals, `none` acting as the identity. -/
def omin (a b : Option ℚ) : Option ℚ :=
  match a, b with
  | none, y => y
  | some x, none => some x
  | some x, some y => some (min x y)

/-- Maximum of two optional rationals, `none` acting as the identity. -/
def omax (a b : Option ℚ) : Option ℚ :=
  match a, b with
  | none, y => y
  | some x, none => some x
  | some x, some y => some (max x y)

def CountAcc.merge (a b : CountAcc) : CountAcc :=
  ⟨a.present + b.present, a.missing + b.missing⟩

/-- Modelled from the spec: the standard parallel (Chan-style) combination
of count, sum and sum of squares, together with min/max combination. -/
def NumericAcc.merge (a b : NumericAcc) : NumericAcc :=
  ⟨a.count + b.count, a.total + b.total, a.sumSq + b.sumSq,
   omin a.minV b.minV, omax a.maxV b.maxV,
   a.missing + b.missing, a.mismatch + b.mismatch⟩

/-- Modelled from the spec: count-wise union of categorical value counts. -/
def CatAcc.merge (a b : CatAcc) : CatAcc :=
  ⟨a.values + b.values, a.missing + b.missing, a.mismatch + b.mismatch⟩

/-- Modelled from the spec: merge of two quantile summaries. -/
def QuantAcc.merge (a b : QuantAcc) : QuantAcc :=
  ⟨a.values + b.values, a.missing + b.missing, a.mismatch + b.mismatch⟩

def WeightedAcc.merge (a b : WeightedAcc) : WeightedAcc :=
  ⟨a.weightSum + b.weightSum, a.weightedTotal + b.weightedTotal,
   a.weightedSumSq + b.weightedSumSq,
   a.missing + b.missing, a.mismatch + b.mismatch⟩

/-- Modelled from the spec: the accumulator state shape owned by each
statistic kind. Merging accumulators of different kinds is a typing error
here, matching the contract that such a merge is never performed. -/
def AccumulatorState : StatisticKind → Type
  | .countPresence => CountAcc
  | .numericBasic => NumericAcc
  | .stringLength => NumericAcc
  | .categorical => CatAcc
  | .quantiles => QuantAcc
  | .correlation => NumericAcc
  | .weightedNumeric => WeightedAcc

instance instDecEqAccumulatorState : (k : StatisticKind) → DecidableEq (AccumulatorState k)
  | .countPresence => inferInstanceAs (DecidableEq CountAcc)
  | .numericBasic => inferInstanceAs (DecidableEq NumericAcc)
  | .stringLength => inferInstanceAs (DecidableEq NumericAcc)
  | .categorical => inferInstanceAs (DecidableEq CatAcc)
  | .quantiles => inferInstanceAs (DecidableEq QuantAcc)
  | .correlation => inferInstanceAs (DecidableEq NumericAcc)
  | .weightedNumeric => inferInstanceAs (DecidableEq WeightedAcc)

/-- Modelled from the spec: `NewEmpty`, the accumulator created at partition
start, stated by the spec to be the identity element for `Merge`. -/
def NewEmpty : (k : StatisticKind) → AccumulatorState k
  | .countPresence => (⟨0, 0⟩ : CountAcc)
  | .numericBasic => (⟨0, 0, 0, none, none, 0, 0⟩ : NumericAcc)
  | .stringLength => (⟨0, 0, 0, none, none, 0, 0⟩ : NumericAcc)
  | .categorical => (⟨0, 0, 0⟩ : CatAcc)
  | .quantiles => (⟨0, 0, 0⟩ : QuantAcc)
  | .correlation => (⟨0, 0, 0, none, none, 0, 0⟩ : NumericAcc)
  | .weightedNumeric => (⟨0, 0, 0, 0, 0⟩ : WeightedAcc)

/-- Modelled from the spec: `Merge`, total on two states of the same
statistic kind. -/
def Merge : (k : StatisticKind) → AccumulatorState k → AccumulatorState k → AccumulatorState k
  | .countPresence => CountAcc.merge
  | .numericBasic => NumericAcc.merge
  | .stringLength => NumericAcc.merge
  | .categorical => CatAcc.merge
  | .quantiles => QuantAcc.merge
  | .correlation => NumericAcc.merge
  | .weightedNumeric => WeightedAcc.merge

/-- Numeric accumulator absorbing a single observed numeric value. -/
def NumericAcc.ofValue (q : ℚ) : NumericAcc := ⟨1, q, q * q, some q, some q, 0, 0⟩

/-- Modelled from the spec: the contribution of one slot to the accumulator
of a given kind. Missing slots feed the missing-count side channel only;
slots of the wrong variant feed the type-mismatch signal instead of
failing. -/
def singletonAcc : (k : StatisticKind) → Slot → AccumulatorState k
  | .countPresence, none => (⟨0, 1⟩ : CountAcc)
  | .countPresence, some _ => (⟨1, 0⟩ : CountAcc)
  | .numericBasic, none => (⟨0, 0, 0, none, none, 1, 0⟩ : NumericAcc)
  | .numericBasic, some (.num q) => NumericAcc.ofValue q
  | .numericBasic, some (.wnum _ q) => NumericAcc.ofValue q
  | .numericBasic, some (.str _) => (⟨0, 0, 0, none, none, 0, 1⟩ : NumericAcc)
  | .stringLength, none => (⟨0, 0, 0, none, none, 1, 0⟩ : NumericAcc)
  | .stringLength, some (.str s) => NumericAcc.ofValue (s.length : ℚ)
  | .stringLength, some (.num _) => (⟨0, 0, 0, none, none, 0, 1⟩ : NumericAcc)
  | .stringLength, some (.wnum _ _) => (⟨0, 0, 0, none, none, 0, 1⟩ : NumericAcc)
  | .categorical, none => (⟨0, 1, 0⟩ : CatAcc)
  | .categorical, some (.str s) => (⟨{s}, 0, 0⟩ : CatAcc)
  | .categorical, some (.num _) => (⟨0, 0, 1⟩ : CatAcc)
  | .categorical, some (.wnum _ _) => (⟨0, 0, 1⟩ : CatAcc)
  | .quantiles, none => (⟨0, 1, 0⟩ : QuantAcc)
  | .quantiles, some (.num q) => (⟨{q}, 0, 0⟩ : QuantAcc)
  | .quantiles, some (.wnum _ q) => (⟨{q}, 0, 0⟩ : QuantAcc)
  | .quantiles, some (.str _) => (⟨0, 0, 1⟩ : QuantAcc)
  | .correlation, none => (⟨0, 0, 0, none, none, 1, 0⟩ : NumericAcc)
  | .correlation, some (.num q) => NumericAcc.ofValue q
  | .correlation, some (.wnum _ q) => NumericAcc.ofValue q
  | .correlation, some (.str _) => (⟨0, 0, 0, none, none, 0, 1⟩ : NumericAcc)
  | .weightedNumeric, none => (⟨0, 0, 0, 1, 0⟩ : WeightedAcc)
  | .weightedNumeric, some (.wnum w q) => (⟨w, w * q, w * q * q, 0, 0⟩ : WeightedAcc)
  | .weightedNumeric, some (.num q) => (⟨1, q, q * q, 0, 0⟩ : WeightedAcc)
  | .weightedNumeric, some (.str _) => (⟨0, 0, 0, 0, 1⟩ : WeightedAcc)

/-- Accumulator absorbing every slot of one column. -/
def ofColumn (k : StatisticKind) (c : Column) : AccumulatorState k :=
  c.foldr (fun s acc => Merge k (singletonAcc k s) acc) (NewEmpty k)

/-- Modelled from the spec: `AddBatch` absorbs all present values of the
feature column from one batch into the state. -/
def AddBatch (k : StatisticKind) (st : AccumulatorState k) (c : Column) : AccumulatorState k :=
  Merge k st (ofColumn k c)

/-- Sequential accumulation of a list of batches starting from the empty
state (the single-partition execution of a combiner generator). -/
def accumulate (k : StatisticKind) (cs : List Column) : AccumulatorState k :=
  cs.foldl (AddBatch k) (NewEmpty k)

/-- Modelled from the spec: `MergeAccumulators`, merging the partial states
of all partitions. -/
def MergeAll (k : StatisticKind) (ss : List (AccumulatorState k)) : AccumulatorState k :=
  ss.foldl (Merge k) (NewEmpty k)

/-- Finalized per-kind statistics block. Undefined derived statistics
(mean, variance, median of an empty state) are an explicit `none`, never
zero. -/
inductive FinalizedStats
  | countStats (present missing : Nat)
  | numStats (count missing mismatch : Nat) (mean variance : Option ℚ) (minV maxV : Option ℚ)
  | catStats (count missing mismatch : Nat) (valueCounts : List (String × Nat))
  | quantStats (count missing : Nat) (median : Option ℚ)
  | wnumStats (weightSum : ℚ) (mean variance : Option ℚ)
  deriving DecidableEq

/-- Guarded mean: undefined on a zero count, never a division fault. -/
def NumericAcc.meanOf (s : NumericAcc) : Option ℚ :=
  if s.count = 0 then none else some (s.total / (s.count : ℚ))

/-- Guarded variance: undefined on a zero count, never a division fault. -/
def NumericAcc.varOf (s : NumericAcc) : Option ℚ :=
  if s.count = 0 then none
  else some (s.sumSq / (s.count : ℚ) - (s.total / (s.count : ℚ)) * (s.total / (s.count : ℚ)))

/-- Value counts of a categorical accumulator, reported in a canonical
deterministic order of the distinct observed values. -/
def CatAcc.valueCounts (s : CatAcc) : List (String × Nat) :=
  (s.values.toFinset.sort (· ≤ ·)).map fun v => (v, s.values.count v)

/-- Median of the quantile summary, undefined on an empty summary. -/
def QuantAcc.medianOf (s : QuantAcc) : Option ℚ :=
  let l := s.values.sort (· ≤ ·)
  l[l.length / 2]?

def WeightedAcc.meanOf (s : WeightedAcc) : Option ℚ :=
  if s.weightSum = 0 then none else some (s.weightedTotal / s.weightSum)

def WeightedAcc.varOf (s : WeightedAcc) : Option ℚ :=
  if s.weightSum = 0 then none
  else some (s.weightedSumSq / s.weightSum -
    (s.weightedTotal / s.weightSum) * (s.weightedTotal / s.weightSum))

/-- Modelled from the spec: `Finalize`, a pure function of the state.
Divisions are guarded so that the zero-count case is an explicit undefined
marker and never a fault. -/
def Finalize : (k : StatisticKind) → AccumulatorState k → FinalizedStats
  | .countPresence, s => .countStats s.present s.missing
  | .numericBasic, s => .numStats s.count s.missing s.mismatch s.meanOf s.varOf s.minV s.maxV
  | .stringLength, s => .numStats s.count s.missing s.mismatch s.meanOf s.varOf s.minV s.maxV
  | .categorical, s => .catStats (Multiset.card s.values) s.missing s.mismatch s.valueCounts
  | .quantiles, s => .quantStats (Multiset.card s.values) s.missing s.medianOf
  | .correlation, s => .numStats s.count s.missing s.mismatch s.meanOf s.varOf s.minV s.maxV
  | .weightedNumeric, s => .wnumStats s.weightSum s.meanOf s.varOf

/-- Total number of record slots across a list of batches. -/
def totalSlots (cs : List Column) : Nat := (cs.map List.length).sum

/-! ### Schema inference and schema validation -/

/-- Declared or observed feature type. -/
inductive FeatureType
  | ftNumeric
  | ftCategorical
  | ftString
  deriving DecidableEq

/-- Modelled from the spec: the per-feature finalized statistics record as
consumed by schema inference and validation (total count, missing count via
presentCount, dominant typed block, numeric range, observed categorical
value set, observed valency). -/
structure FeatureStats where
  name : String
  totalCount : Nat
  presentCount : Nat
  observedType : FeatureType
  numMin : Option ℚ
  numMax : Option ℚ
  observedValues : List String
  valency : Option Nat
  deriving DecidableEq

/-- Presence constraint of a feature specification. -/
inductive Presence
  | required
  | optional (minFraction : ℚ)
  deriving DecidableEq

/-- Value domain of a feature specification. -/
inductive Domain
  | numRange (lo hi : ℚ)
  | enumDomain (values : List String)
  deriving DecidableEq

/-- Modelled from the spec: FeatureSpec = declared type, presence
constraint, optional value domain, optional fixed-shape constraint. -/
structure FeatureSpec where
  name : String
  declaredType : FeatureType
  presence : Presence
  domain : Option Domain
  shape : Option Nat
  deriving DecidableEq

/-- Modelled from the spec: a schema is a mapping from feature identity to
feature specification. -/
structure Schema where
  features : List FeatureSpec
  deriving DecidableEq

/-- Configurable thresholds of the inference engine (categorical domain
size cap). -/
structure Thresholds where
  domainCap : Nat
  deriving DecidableEq

/-- Fraction of records in which the feature is present. -/
def presentFraction (fs : FeatureStats) : ℚ :=
  (fs.presentCount : ℚ) / (fs.totalCount : ℚ)

/-- Fraction of records in which the feature is missing. -/
def missingFraction (fs : FeatureStats) : ℚ :=
  ((fs.totalCount - fs.presentCount : ℕ) : ℚ) / (fs.totalCount : ℚ)

/-- Modelled from the spec: per-feature schema inference — declared type
from the dominant statistic block, presence required exactly when the
missing fraction is zero and otherwise optional with a minimum-presence
fraction, domain from the observed numeric range or the observed value set
capped at the configurable maximum domain size. -/
def inferFeature (t : Thresholds) (fs : FeatureStats) : FeatureSpec :=
  { name := fs.name
    declaredType := fs.observedType
    presence :=
      if fs.presentCount = fs.totalCount then .required
      else .optional (presentFraction fs)
    domain :=
      match fs.observedType with
      | .ftNumeric =>
        match fs.numMin, fs.numMax with
        | some lo, some hi => some (.numRange lo hi)
        | _, _ => none
      | .ftCategorical =>
        if fs.observedValues.length ≤ t.domainCap then
          some (.enumDomain fs.observedValues)
        else none
      | .ftString => none
    shape := fs.valency }

/-- Modelled from the spec: schema inference over a finalized statistics
set, a stateless function of the statistics and the thresholds. -/
def infer_schema (stats : List FeatureStats) (t : Thresholds) : Schema :=
  ⟨stats.map (inferFeature t)⟩

/-- Closed enumeration of anomaly kinds. -/
inductive AnomalyKind
  | featureMissing
  | unexpectedFeature
  | typeMismatchKind
  | presenceBelow
  | numOutOfRange
  | enumValueMissing
  | shapeMismatchKind
  deriving DecidableEq

/-- Anomaly severity. -/
inductive Severity
  | warning
  | error
  deriving DecidableEq

/-- Modelled from the spec: a structured anomaly with feature identity,
kind, severity and a human-readable description. -/
structure Anomaly where
  feature : String
  kind : AnomalyKind
  severity : Severity
  description : String
  deriving DecidableEq

/-- Validator configuration: the severity of the unexpected-feature
anomaly, WARNING by default and configurable to ERROR. -/
structure ValidationOptions where
  unexpectedSeverity : Severity
  deriving DecidableEq

/-- Default validator configuration. -/
def defaultValidationOptions : ValidationOptions := ⟨.warning⟩

/-- Type-compatibility check for a feature present in both inputs. -/
def checkType (sp : FeatureSpec) (fs : FeatureStats) : Option Anomaly :=
  if sp.declaredType = fs.observedType then none
  else some ⟨sp.name, .typeMismatchKind, .error, "type mismatch"⟩

/-- Presence-fraction check against the minimum declared by the schema. -/
def checkPresence (sp : FeatureSpec) (fs : FeatureStats) : Option Anomaly :=
  match sp.presence with
  | .required =>
    if fs.presentCount = fs.totalCount then none
    else some ⟨sp.name, .presenceBelow, .error, "required feature has missing values"⟩
  | .optional f =>
    if f ≤ presentFraction fs then none
    else some ⟨sp.name, .presenceBelow, .error, "presence below threshold"⟩

/-- Domain-membership check: numeric range containment or categorical
enum membership; at most one anomaly per feature. -/
def checkDomain (sp : FeatureSpec) (fs : FeatureStats) : Option Anomaly :=
  match sp.domain with
  | none => none
  | some (.numRange lo hi) =>
    match fs.numMin, fs.numMax with
    | some mn, some mx =>
      if lo ≤ mn ∧ mx ≤ hi then none
      else some ⟨sp.name, .numOutOfRange, .error, "value out of numeric range"⟩
    | _, _ => none
  | some (.enumDomain vs) =>
    if fs.observedValues.all (fun v => decide (v ∈ vs)) then none
    else some ⟨sp.name, .enumValueMissing, .error, "value not in enumerated domain"⟩

/-- Shape-compatibility check. -/
def checkShape (sp : FeatureSpec) (fs : FeatureStats) : Option Anomaly :=
  match sp.shape, fs.valency with
  | some n, some m =>
    if n = m then none else some ⟨sp.name, .shapeMismatchKind, .error, "shape mismatch"⟩
  | some _, none => some ⟨sp.name, .shapeMismatchKind, .error, "shape mismatch"⟩
  | none, _ => none

/-- Modelled from the spec: the independent per-feature checks for a
feature present in both the statistics and the schema; each failed check
appends one anomaly. -/
def checkFeature (sp : FeatureSpec) (fs : FeatureStats) : List Anomaly :=
  (checkType sp fs).toList ++ (checkPresence sp fs).toList ++
    (checkDomain sp fs).toList ++ (checkShape sp fs).toList

/-- First statistics record with the given feature name. -/
def lookupStats (stats : List FeatureStats) (n : String) : Option FeatureStats :=
  stats.find? (fun fs => fs.name == n)

/-- First feature specification with the given feature name. -/
def lookupSpec (sch : Schema) (n : String) : Option FeatureSpec :=
  sch.features.find? (fun sp => sp.name == n)

/-- Modelled from the spec: the anomaly comparator, a pure function of the
statistics set and the schema. Schema features absent from the statistics
yield a feature-missing ERROR; statistics features absent from the schema
yield an unexpected-feature anomaly at the configured severity; features
present in both run the independent per-feature checks. -/
def validate_statistics (stats : List FeatureStats) (sch : Schema)
    (opts : ValidationOptions) : List Anomaly :=
  (sch.features.flatMap fun sp =>
    match lookupStats stats sp.name with
    | none => [⟨sp.name, .featureMissing, .error, "feature missing from statistics"⟩]
    | some fs => checkFeature sp fs) ++
  (stats.filterMap fun fs =>
    match lookupSpec sch fs.name with
    | none => some ⟨fs.name, .unexpectedFeature, opts.unexpectedSeverity, "unexpected feature"⟩
    | some _ => none)

/-- Modelled from the spec: a combiner stats generator as driven by the
dataset statistics aggregator — a registered name, the feature it serves,
its statistic kind, and the soft-failure predicate deciding whether a
given batch can be processed by this generator. -/
structure CombinerGen where
  gname : String
  feature : String
  kind : StatisticKind
  canProcess : Column → Bool

/-- A soft warning recorded when a generator skips a batch. -/
structure Warning where
  gname : String
  feature : String
  message : String
  deriving DecidableEq

/-- The warning recorded when a generator skips one batch. -/
def skipWarning (g : CombinerGen) : Warning :=
  ⟨g.gname, g.feature, "batch skipped by generator"⟩

/-- Modelled from the spec: the aggregator driving one generator over the
batch sequence. A batch the generator cannot process is skipped for that
generator only and recorded as a soft warning; the run never fails. -/
def runGen (g : CombinerGen) (batches : List Column) :
    AccumulatorState g.kind × List Warning :=
  batches.foldl
    (fun acc c =>
      if g.canProcess c then (AddBatch g.kind acc.1 c, acc.2)
      else (acc.1, acc.2 ++ [skipWarning g]))
    (NewEmpty g.kind, [])

/-- Modelled from the spec: the aggregator driving every active generator
over the batch sequence, producing one partial result per generator. -/
def runAll (gens : List CombinerGen) (batches : List Column) :
    List ((g : CombinerGen) × (AccumulatorState g.kind × List Warning)) :=
  gens.map fun g => ⟨g, runGen g batches⟩

/-- One statement of the package init module: a re-export binding a public
name to a symbol imported from a source module. The module body consists of
nothing but such statements. -/
structure ImportStmt where
  sourceModule : String
  exportedName : String
  deriving DecidableEq

/-- The body of tensorflow_data_validation/__init__.py, statement by
statement in source order; every statement is a re-export and the module
performs no computation of its own. -/
def initModuleBody : List ImportStmt :=
  [⟨"tensorflow_data_validation.api.stats_api", "GenerateStatistics"⟩,
   ⟨"tensorflow_data_validation.api.validation_api", "infer_schema"⟩,
   ⟨"tensorflow_data_validation.api.validation_api", "validate_statistics"⟩,
   ⟨"tensorflow_data_validation.coders.csv_decoder", "DecodeCSV"⟩,
   ⟨"tensorflow_data_validation.coders.tf_example_decoder", "TFExampleDecoder"⟩,
   ⟨"tensorflow_data_validation.statistics.generators.stats_generator",
     "CombinerStatsGenerator"⟩,
   ⟨"tensorflow_data_validation.statistics.generators.stats_generator",
     "TransformStatsGenerator"⟩,
   ⟨"tensorflow_data_validation.statistics.stats_options", "StatsOptions"⟩,
   ⟨"tensorflow_data_validation.utils.display_util", "display_anomalies"⟩,
   ⟨"tensorflow_data_validation.utils.display_util", "display_schema"⟩,
   ⟨"tensorflow_data_validation.utils.display_util", "visualize_statistics"⟩,
   ⟨"tensorflow_data_validation.utils.schema_util", "get_domain"⟩,
   ⟨"tensorflow_data_validation.utils.schema_util", "get_feature"⟩,
   ⟨"tensorflow_data_validation.utils.schema_util", "load_schema_text"⟩,
   ⟨"tensorflow_data_validation.utils.schema_util", "set_domain"⟩,
   ⟨"tensorflow_data_validation.utils.schema_util", "write_schema_text"⟩,
   ⟨"tensorflow_data_validation.utils.stats_gen_lib", "generate_statistics_from_csv"⟩,
   ⟨"tensorflow_data_validation.utils.stats_gen_lib", "generate_statistics_from_dataframe"⟩,
   ⟨"tensorflow_data_validation.utils.stats_gen_lib", "generate_statistics_from_tfrecord"⟩,
   ⟨"tensorflow_data_validation.utils.stats_gen_lib", "load_statistics"⟩,
   ⟨"tensorflow_data_validation.version", "__version__"⟩]

/-- The public name set bound by the init module. -/
def publicNames : List String := initModuleBody.map ImportStmt.exportedName

/-- Sample statistics record used by concrete witnesses. -/
def sampleStats : FeatureStats :=
  { name := "age", totalCount := 4, presentCount := 4, observedType := .ftNumeric,
    numMin := some 0, numMax := some 9, observedValues := [], valency := some 1 }

/-- Sample statistics record with missing values, used by witnesses. -/
def samplePartialStats : FeatureStats :=
  { name := "color", totalCount := 2, presentCount := 1, observedType := .ftCategorical,
    numMin := none, numMax := none, observedValues := ["red"], valency := some 1 }

/-- Sample stats record that fails both the type and the shape check
against `multiSpec`, demonstrating independent checks. -/
def multiStats : FeatureStats :=
  { name := "f", totalCount := 3, presentCount := 3, observedType := .ftString,
    numMin := none, numMax := none, observedValues := [], valency := some 2 }

/-- Sample feature specification paired with `multiStats`. -/
def multiSpec : FeatureSpec :=
  { name := "f", declaredType := .ftNumeric, presence := .required,
    domain := none, shape := some 1 }

/-- Sample schema used by concrete witnesses. -/
def sampleSchema : Schema :=
  ⟨[{ name := "age", declaredType := .ftNumeric, presence := .required,
      domain := none, shape := some 1 }]⟩

/-- Sample schema with an enumerated domain, used by the C7 witness. -/
def enumSchema : Schema :=
  ⟨[{ name := "color", declaredType := .ftCategorical, presence := .required,
      domain := some (.enumDomain ["red", "blue"]), shape := none }]⟩

/-- Sample stats set containing a value outside the enumerated domain of
`enumSchema`. -/
def enumViolStats : List FeatureStats :=
  [{ name := "color", totalCount := 3, presentCount := 3,
     observedType := .ftCategorical, numMin := none, numMax := none,
     observedValues := ["red", "green"], valency := none }]

/-! ### Merge algebra -/

theorem omin_assoc (a b c : Option ℚ) : omin (omin a b) c = omin a (omin b c) := by
  cases a <;> cases b <;> cases c <;> simp [omin, min_assoc]

theorem omin_comm (a b : Option ℚ) : omin a b = omin b a := by
  cases a <;> cases b <;> simp [omin, min_comm]

theorem omax_assoc (a b c : Option ℚ) : omax (omax a b) c = omax a (omax b c) := by
  cases a <;> cases b <;> cases c <;> simp [omax, max_assoc]

theorem omax_comm (a b : Option ℚ) : omax a b = omax b a := by
  cases a <;> cases b <;> simp [omax, max_comm]

theorem empty_merge (k : StatisticKind) (s : AccumulatorState k) :
    Merge k (NewEmpty k) s = s := by
  cases k <;> cases s <;>
    simp [Merge, NewEmpty, CountAcc.merge, NumericAcc.merge, CatAcc.merge,
      QuantAcc.merge, WeightedAcc.merge, omin, omax]

theorem merge_empty (k : StatisticKind) (s : AccumulatorState k) :
    Merge k s (NewEmpty k) = s := by
  cases k <;> cases s <;>
    simp [Merge, NewEmpty, CountAcc.merge, NumericAcc.merge, CatAcc.merge,
      QuantAcc.merge, WeightedAcc.merge, omin, omax] <;>
    rename_i mn mx _ _ <;> cases mn <;> cases mx <;> simp [omin, omax]

theorem merge_assoc (k : StatisticKind) (a b c : AccumulatorState k) :
    Merge k (Merge k a b) c = Merge k a (Merge k b c) := by
  cases k <;> cases a <;> cases b <;> cases c <;>
    simp [Merge, CountAcc.merge, NumericAcc.merge, CatAcc.merge,
      QuantAcc.merge, WeightedAcc.merge, omin_assoc, omax_assoc,
      add_assoc, Nat.add_assoc]

theorem merge_comm (k : StatisticKind) (a b : AccumulatorState k) :
    Merge k a b = Merge k b a := by
  cases k <;> cases a <;> cases b <;>
    simp [Merge, CountAcc.merge, NumericAcc.merge, CatAcc.merge,
      QuantAcc.merge, WeightedAcc.merge, omin_comm, omax_comm,
      add_comm, Nat.add_comm]

/-! ### Accumulation as a commutative-monoid fold -/

theorem foldl_addBatch_eq (k : StatisticKind) (s : AccumulatorState k) (cs : List Column) :
    cs.foldl (AddBatch k) s = Merge k s (accumulate k cs) := by
  induction cs generalizing s with
  | nil => simp [accumulate, merge_empty]
  | cons c cs ih =>
    simp only [List.foldl_cons, accumulate] at *
    rw [ih (AddBatch k s c), ih (AddBatch k (NewEmpty k) c)]
    simp [AddBatch, empty_merge, merge_assoc]

theorem accumulate_cons (k : StatisticKind) (c : Column) (cs : List Column) :
    accumulate k (c :: cs) = Merge k (ofColumn k c) (accumulate k cs) := by
  simp only [accumulate, List.foldl_cons]
  rw [foldl_addBatch_eq]
  simp [AddBatch, empty_merge, accumulate]

theorem accumulate_append (k : StatisticKind) (l1 l2 : List Column) :
    accumulate k (l1 ++ l2) = Merge k (accumulate k l1) (accumulate k l2) := by
  induction l1 with
  | nil => simp [accumulate, empty_merge]
  | cons c cs ih =>
    rw [List.cons_append, accumulate_cons, ih, accumulate_cons, merge_assoc]

theorem foldl_merge_eq (k : StatisticKind) (s : AccumulatorState k)
    (ss : List (AccumulatorState k)) :
    ss.foldl (Merge k) s = Merge k s (MergeAll k ss) := by
  induction ss generalizing s with
  | nil => simp [MergeAll, merge_empty]
  | cons a ss ih =>
    simp only [List.foldl_cons, MergeAll] at *
    rw [ih (Merge k s a), ih (Merge k (NewEmpty k) a)]
    simp [empty_merge, merge_assoc]

theorem mergeAll_cons (k : StatisticKind) (a : AccumulatorState k)
    (ss : List (AccumulatorState k)) :
    MergeAll k (a :: ss) = Merge k a (MergeAll k ss) := by
  simp only [MergeAll, List.foldl_cons]
  rw [foldl_merge_eq]
  simp [empty_merge, MergeAll]

/-- Merging the per-partition partial states equals accumulating the
concatenation of all partitions. -/
theorem mergeAll_map_accumulate (k : StatisticKind) (p : List (List Column)) :
    MergeAll k (p.map (accumulate k)) = accumulate k p.flatten := by
  induction p with
  | nil => rfl
  | cons part rest ih =>
    rw [List.map_cons, mergeAll_cons, ih, List.flatten_cons, accumulate_append]

/-- Accumulation is invariant under permutation of the batch list. -/
theorem accumulate_perm (k : StatisticKind) {cs1 cs2 : List Column}
    (h : List.Perm cs1 cs2) : accumulate k cs1 = accumulate k cs2 := by
  unfold accumulate
  exact @List.Perm.foldl_eq _ _ (AddBatch k) cs1 cs2
    ⟨fun b a1 a2 => by simp only [AddBatch, merge_assoc]; rw [merge_comm k (ofColumn k a1)]⟩
    h (NewEmpty k)

/-- C1: for every StatisticKind, Merge on accumulator states is total (it is
a function on same-kind states), associative and commutative; and for every
fixed multiset of input batches, every grouping into partitions and every
order, finalizing the merged result yields the same FinalizedStats (exactly,
since numerics are exact rationals). -/
theorem merge_assoc_comm_grouping_invariant (k : StatisticKind) :
    (∀ a b c : AccumulatorState k, Merge k (Merge k a b) c = Merge k a (Merge k b c)) ∧
    (∀ a b : AccumulatorState k, Merge k a b = Merge k b a) ∧
    (∀ p1 p2 : List (List Column), List.Perm p1.flatten p2.flatten →
      Finalize k (MergeAll k (p1.map (accumulate k))) =
        Finalize k (MergeAll k (p2.map (accumulate k)))) := by
  refine ⟨merge_assoc k, merge_comm k, fun p1 p2 h => ?_⟩
  rw [mergeAll_map_accumulate, mergeAll_map_accumulate, accumulate_perm k h]

/-- Witness for C1: three batches, grouped as two partitions in one order
and one partition in another order, finalize identically. -/
theorem merge_assoc_comm_grouping_invariant_witness :
    Finalize .numericBasic
        (MergeAll .numericBasic
          ([[[some (.num 3), none]], [[some (.num 5)], [some (.str "a")]]].map
            (accumulate .numericBasic))) =
      Finalize .numericBasic
        (MergeAll .numericBasic
          ([[[some (.str "a")], [some (.num 3), none], [some (.num 5)]]].map
            (accumulate .numericBasic))) :=
  (merge_assoc_comm_grouping_invariant .numericBasic).2.2 _ _ (by decide)

/-- C2: NewEmpty is a two-sided identity element for Merge, for every
StatisticKind and every accumulator state of that kind. -/
theorem newEmpty_identity_for_merge (k : StatisticKind) (s : AccumulatorState k) :
    Merge k (NewEmpty k) s = s ∧ Merge k s (NewEmpty k) = s :=
  ⟨empty_merge k s, merge_empty k s⟩

/-! ### Zero observed values -/

theorem ofColumn_numeric_all_missing (c : Column) (h : ∀ s ∈ c, s = none) :
    ofColumn .numericBasic c = (⟨0, 0, 0, none, none, c.length, 0⟩ : NumericAcc) := by
  induction c with
  | nil => rfl
  | cons s rest ih =>
    have hs : s = none := h s (List.mem_cons_self s rest)
    have hrest : ∀ x ∈ rest, x = none := fun x hx => h x (List.mem_cons_of_mem s hx)
    subst hs
    simp only [ofColumn, List.foldr_cons] at *
    rw [ih hrest]
    simp [Merge, NumericAcc.merge, singletonAcc, omin, omax, Nat.add_comm]

theorem ofColumn_categorical_all_missing (c : Column) (h : ∀ s ∈ c, s = none) :
    ofColumn .categorical c = (⟨0, c.length, 0⟩ : CatAcc) := by
  induction c with
  | nil => rfl
  | cons s rest ih =>
    have hs : s = none := h s (List.mem_cons_self s rest)
    have hrest : ∀ x ∈ rest, x = none := fun x hx => h x (List.mem_cons_of_mem s hx)
    subst hs
    simp only [ofColumn, List.foldr_cons] at *
    rw [ih hrest]
    simp [Merge, CatAcc.merge, singletonAcc, Nat.add_comm]

theorem accumulate_numeric_all_missing (cs : List Column)
    (h : ∀ c ∈ cs, ∀ s ∈ c, s = none) :
    accumulate .numericBasic cs = (⟨0, 0, 0, none, none, totalSlots cs, 0⟩ : NumericAcc) := by
  induction cs with
  | nil => rfl
  | cons c rest ih =>
    have hc : ∀ s ∈ c, s = none := h c (List.mem_cons_self c rest)
    have hrest : ∀ x ∈ rest, ∀ s ∈ x, s = none :=
      fun x hx => h x (List.mem_cons_of_mem c hx)
    rw [accumulate_cons, ih hrest, ofColumn_numeric_all_missing c hc]
    simp [Merge, NumericAcc.merge, omin, omax, totalSlots]

theorem accumulate_categorical_all_missing (cs : List Column)
    (h : ∀ c ∈ cs, ∀ s ∈ c, s = none) :
    accumulate .categorical cs = (⟨0, totalSlots cs, 0⟩ : CatAcc) := by
  induction cs with
  | nil => rfl
  | cons c rest ih =>
    have hc : ∀ s ∈ c, s = none := h c (List.mem_cons_self c rest)
    have hrest : ∀ x ∈ rest, ∀ s ∈ x, s = none :=
      fun x hx => h x (List.mem_cons_of_mem c hx)
    rw [accumulate_cons, ih hrest, ofColumn_categorical_all_missing c hc]
    simp [Merge, CatAcc.merge, totalSlots]

/-- C4: a feature whose accumulator absorbed zero observed values finalizes
to count = 0, missing = total record count, explicit undefined markers
(`none`, not zero) for mean and variance, no derived numeric range and no
observed categorical values; the guarded division never faults. -/
theorem finalize_all_missing (cs : List Column) (h : ∀ c ∈ cs, ∀ s ∈ c, s = none) :
    Finalize .numericBasic (accumulate .numericBasic cs) =
        .numStats 0 (totalSlots cs) 0 none none none none ∧
      Finalize .categorical (accumulate .categorical cs) =
        .catStats 0 (totalSlots cs) 0 [] := by
  constructor
  · rw [accumulate_numeric_all_missing cs h]
    simp [Finalize, NumericAcc.meanOf, NumericAcc.varOf]
  · rw [accumulate_categorical_all_missing cs h]
    simp [Finalize, CatAcc.valueCounts]

/-- Witness for C4: two batches, three slots, all missing. -/
theorem finalize_all_missing_witness :
    Finalize .numericBasic (accumulate .numericBasic [[none, none], [none]]) =
        .numStats 0 (totalSlots [[none, none], [none]]) 0 none none none none ∧
      Finalize .categorical (accumulate .categorical [[none, none], [none]]) =
        .catStats 0 (totalSlots [[none, none], [none]]) 0 [] :=
  finalize_all_missing [[none, none], [none]] (by decide)

/-! ### Purity of Finalize and the anomaly comparator -/

/-- C3: Finalize and the anomaly comparator are pure functions of their
arguments: finalizing the same state any number of times yields the same
block each time, and two comparator calls on identical inputs yield an
identical, order-stable anomaly list. (State mutation does not exist in
this embedding; purity is witnessed by input-determinism.) -/
theorem finalize_and_comparator_pure :
    (∀ (k : StatisticKind) (s : AccumulatorState k) (n : ℕ),
      (List.replicate n s).map (Finalize k) = List.replicate n (Finalize k s)) ∧
    (∀ (stats1 stats2 : List FeatureStats) (sch1 sch2 : Schema)
       (o1 o2 : ValidationOptions), stats1 = stats2 → sch1 = sch2 → o1 = o2 →
      validate_statistics stats1 sch1 o1 = validate_statistics stats2 sch2 o2) := by
  constructor
  · intro k s n
    exact List.map_replicate
  · intro stats1 stats2 sch1 sch2 o1 o2 h1 h2 h3
    rw [h1, h2, h3]

/-- Witness for C3 at concrete inputs. -/
theorem finalize_and_comparator_pure_witness :
    validate_statistics [sampleStats] sampleSchema defaultValidationOptions =
      validate_statistics [sampleStats] sampleSchema defaultValidationOptions :=
  finalize_and_comparator_pure.2 [sampleStats] [sampleStats] sampleSchema sampleSchema
    defaultValidationOptions defaultValidationOptions rfl rfl rfl

/-! ### Schema inference: determinism and the presence rule -/

/-- C8: schema inference is a deterministic, stateless function of the
statistics and the thresholds (its two arguments determine its output), and
it derives the presence constraint from the missing-count ratio: required
exactly when the missing fraction is zero, otherwise optional with a
minimum-presence fraction. -/
theorem infer_schema_deterministic_presence (t : Thresholds) (fs : FeatureStats)
    (hwf : fs.presentCount ≤ fs.totalCount) :
    (∀ (s1 s2 : List FeatureStats) (t1 t2 : Thresholds), s1 = s2 → t1 = t2 →
      infer_schema s1 t1 = infer_schema s2 t2) ∧
    (missingFraction fs = 0 → (inferFeature t fs).presence = .required) ∧
    (missingFraction fs ≠ 0 →
      (inferFeature t fs).presence = .optional (presentFraction fs)) := by
  refine ⟨fun s1 s2 t1 t2 h1 h2 => by rw [h1, h2], ?_, ?_⟩
  · intro h0
    have heq : fs.presentCount = fs.totalCount := by
      rcases div_eq_zero_iff.mp h0 with hn | hd
      · have : fs.totalCount - fs.presentCount = 0 := by exact_mod_cast hn
        omega
      · have : fs.totalCount = 0 := by exact_mod_cast hd
        omega
    simp [inferFeature, heq]
  · intro hne
    have heq : ¬ fs.presentCount = fs.totalCount := by
      intro he
      exact hne (by simp [missingFraction, he])
    simp [inferFeature, heq]

/-- Witness for C8 at a fully observed concrete feature. -/
theorem infer_schema_deterministic_presence_witness :
    (inferFeature ⟨10⟩ sampleStats).presence = .required :=
  (infer_schema_deterministic_presence ⟨10⟩ sampleStats (by decide)).2.1
    (by simp [missingFraction, sampleStats])

/-! ### Validator: missing features, unexpected features, independent checks -/

/-- C5: a schema feature absent from the statistics yields a
feature-missing anomaly with severity ERROR; a statistics feature absent
from the schema yields an unexpected-feature anomaly whose severity is the
configured one — WARNING by default and configurable to ERROR; and for
features present in both, the four checks are independent, so one feature
may yield several anomalies in one pass (demonstrated by a feature failing
both the type and the shape check). -/
theorem validator_missing_unexpected_independent :
    (∀ (stats : List FeatureStats) (sch : Schema) (opts : ValidationOptions)
       (sp : FeatureSpec), sp ∈ sch.features → lookupStats stats sp.name = none →
      (⟨sp.name, .featureMissing, .error, "feature missing from statistics"⟩ : Anomaly) ∈
        validate_statistics stats sch opts) ∧
    (∀ (stats : List FeatureStats) (sch : Schema) (opts : ValidationOptions)
       (fs : FeatureStats), fs ∈ stats → lookupSpec sch fs.name = none →
      (⟨fs.name, .unexpectedFeature, opts.unexpectedSeverity, "unexpected feature"⟩ : Anomaly) ∈
        validate_statistics stats sch opts) ∧
    defaultValidationOptions.unexpectedSeverity = .warning ∧
    (ValidationOptions.mk .error).unexpectedSeverity = .error ∧
    (∀ (sp : FeatureSpec) (fs : FeatureStats),
      checkFeature sp fs = (checkType sp fs).toList ++ ((checkPresence sp fs).toList ++
        ((checkDomain sp fs).toList ++ (checkShape sp fs).toList))) ∧
    validate_statistics [multiStats] (Schema.mk [multiSpec]) defaultValidationOptions =
      [⟨"f", .typeMismatchKind, .error, "type mismatch"⟩,
       ⟨"f", .shapeMismatchKind, .error, "shape mismatch"⟩] := by
  refine ⟨?_, ?_, rfl, rfl, ?_, by decide⟩
  · intro stats sch opts sp hsp hlk
    unfold validate_statistics
    apply List.mem_append_left
    apply List.mem_flatMap.mpr
    exact ⟨sp, hsp, by rw [hlk]; exact List.mem_singleton.mpr rfl⟩
  · intro stats sch opts fs hfs hlk
    unfold validate_statistics
    apply List.mem_append_right
    apply List.mem_filterMap.mpr
    exact ⟨fs, hfs, by rw [hlk]⟩
  · intro sp fs
    simp [checkFeature]

/-- Witness for C5: a schema feature with no statistics yields the
feature-missing ERROR anomaly. -/
theorem validator_missing_unexpected_independent_witness :
    (⟨"age", .featureMissing, .error, "feature missing from statistics"⟩ : Anomaly) ∈
      validate_statistics [] sampleSchema defaultValidationOptions :=
  validator_missing_unexpected_independent.1 [] sampleSchema defaultValidationOptions
    (sampleSchema.features.head (by decide)) (by decide) rfl

/-! ### Schema round trip -/

theorem inferFeature_name (t : Thresholds) (fs : FeatureStats) :
    (inferFeature t fs).name = fs.name := rfl

/-- With pairwise-distinct feature names, looking a feature name up in the
statistics set returns exactly that feature's record. -/
theorem lookupStats_self (stats : List FeatureStats) (fs : FeatureStats)
    (hnd : (stats.map FeatureStats.name).Nodup) (hfs : fs ∈ stats) :
    lookupStats stats fs.name = some fs := by
  induction stats with
  | nil => cases hfs
  | cons a rest ih =>
    rw [List.map_cons, List.nodup_cons] at hnd
    rcases List.mem_cons.mp hfs with rfl | hmem
    · simp [lookupStats]
    · have hna : a.name ≠ fs.name := by
        intro he
        exact hnd.1 (he ▸ List.mem_map_of_mem FeatureStats.name hmem)
      unfold lookupStats
      rw [List.find?_cons_of_neg _ (by simp [hna])]
      exact ih hnd.2 hmem

/-- Every per-feature check passes when the specification was inferred from
the very statistics record being checked. -/
theorem checkFeature_inferFeature (t : Thresholds) (fs : FeatureStats) :
    checkFeature (inferFeature t fs) fs = [] := by
  have ht : checkType (inferFeature t fs) fs = none := by
    simp [checkType, inferFeature]
  have hp : checkPresence (inferFeature t fs) fs = none := by
    by_cases h : fs.presentCount = fs.totalCount
    · simp [checkPresence, inferFeature, h]
    · simp [checkPresence, inferFeature, h]
  have hd : checkDomain (inferFeature t fs) fs = none := by
    cases hot : fs.observedType with
    | ftNumeric =>
      cases hmn : fs.numMin <;> cases hmx : fs.numMax <;>
        simp [checkDomain, inferFeature, hot, hmn, hmx]
    | ftCategorical =>
      by_cases hc : fs.observedValues.length ≤ t.domainCap
      · simp [checkDomain, inferFeature, hot, hc, List.all_eq_true]
      · simp [checkDomain, inferFeature, hot, hc]
    | ftString => simp [checkDomain, inferFeature, hot]
  have hs : checkShape (inferFeature t fs) fs = none := by
    cases hv : fs.valency <;> simp [checkShape, inferFeature, hv]
  simp [checkFeature, ht, hp, hd, hs]

/-- C6: validating a statistics set against the schema inferred from that
same statistics set yields zero anomalies, for any thresholds and any
validator configuration. -/
theorem validate_infer_roundtrip (stats : List FeatureStats) (t : Thresholds)
    (opts : ValidationOptions) (hnd : (stats.map FeatureStats.name).Nodup) :
    validate_statistics stats (infer_schema stats t) opts = [] := by
  unfold validate_statistics
  rw [List.append_eq_nil]
  constructor
  · rw [List.flatMap_eq_nil_iff]
    intro sp hsp
    rcases List.mem_map.mp hsp with ⟨fs, hfs, rfl⟩
    rw [inferFeature_name, lookupStats_self stats fs hnd hfs]
    exact checkFeature_inferFeature t fs
  · rw [List.filterMap_eq_nil_iff]
    intro fs hfs
    have : (lookupSpec (infer_schema stats t) fs.name).isSome := by
      apply List.find?_isSome.mpr
      exact ⟨inferFeature t fs, List.mem_map_of_mem _ hfs, by simp [inferFeature_name]⟩
    rcases Option.isSome_iff_exists.mp this with ⟨sp, hsp⟩
    rw [hsp]

/-- Witness for C6: a two-feature statistics set with distinct names
round-trips to an empty anomaly list. -/
theorem validate_infer_roundtrip_witness :
    validate_statistics [sampleStats, samplePartialStats]
      (infer_schema [sampleStats, samplePartialStats] ⟨10⟩)
      defaultValidationOptions = [] :=
  validate_infer_roundtrip [sampleStats, samplePartialStats] ⟨10⟩
    defaultValidationOptions (by decide)

/-! ### Exactly one domain-membership anomaly per offending feature -/

theorem countP_flatMap_eq_sum {α β : Type} (p : β → Bool) (f : α → List β) (l : List α) :
    (l.flatMap f).countP p = (l.map fun x => (f x).countP p).sum := by
  induction l with
  | nil => rfl
  | cons a l ih => simp [List.flatMap_cons, List.countP_append, ih]

theorem checkType_kind (sp : FeatureSpec) (fs : FeatureStats) (a : Anomaly)
    (h : checkType sp fs = some a) :
    a.feature = sp.name ∧ a.kind = .typeMismatchKind := by
  unfold checkType at h
  repeat' split at h
  all_goals try (cases h; exact ⟨rfl, rfl⟩)
  all_goals cases h

theorem checkPresence_kind (sp : FeatureSpec) (fs : FeatureStats) (a : Anomaly)
    (h : checkPresence sp fs = some a) :
    a.feature = sp.name ∧ a.kind = .presenceBelow := by
  unfold checkPresence at h
  repeat' split at h
  all_goals try (cases h; exact ⟨rfl, rfl⟩)
  all_goals cases h

theorem checkDomain_kind (sp : FeatureSpec) (fs : FeatureStats) (a : Anomaly)
    (h : checkDomain sp fs = some a) :
    a.feature = sp.name ∧ (a.kind = .numOutOfRange ∨ a.kind = .enumValueMissing) := by
  unfold checkDomain at h
  repeat' split at h
  all_goals try (cases h; exact ⟨rfl, Or.inl rfl⟩)
  all_goals try (cases h; exact ⟨rfl, Or.inr rfl⟩)
  all_goals cases h

theorem checkShape_kind (sp : FeatureSpec) (fs : FeatureStats) (a : Anomaly)
    (h : checkShape sp fs = some a) :
    a.feature = sp.name ∧ a.kind = .shapeMismatchKind := by
  unfold checkShape at h
  repeat' split at h
  all_goals try (cases h; exact ⟨rfl, rfl⟩)
  all_goals cases h

/-- A feature with a different name contributes no anomaly counted for the
offending feature. -/
theorem countP_checkFeature_other (sp x : FeatureSpec) (fsx : FeatureStats)
    (hne : x.name ≠ sp.name) :
    (checkFeature x fsx).countP
      (fun a => decide (a.feature = sp.name ∧ a.kind = .enumValueMissing)) = 0 := by
  apply List.countP_eq_zero.mpr
  intro a ha
  simp only [checkFeature, List.mem_append, Option.mem_toList, Option.mem_def] at ha
  have hfeat : a.feature = x.name := by
    rcases ha with ((h | h) | h) | h
    · exact (checkType_kind x fsx a h).1
    · exact (checkPresence_kind x fsx a h).1
    · exact (checkDomain_kind x fsx a h).1
    · exact (checkShape_kind x fsx a h).1
  simp [hfeat, hne]

/-- The per-feature checks of an offending feature contribute exactly one
domain-membership anomaly. -/
theorem countP_checkFeature_enum (sp : FeatureSpec) (fs : FeatureStats) (vs : List String)
    (hdom : sp.domain = some (.enumDomain vs))
    (hviol : fs.observedValues.all (fun v => decide (v ∈ vs)) = false) :
    (checkFeature sp fs).countP
      (fun a => decide (a.feature = sp.name ∧ a.kind = .enumValueMissing)) = 1 := by
  have hd : checkDomain sp fs =
      some ⟨sp.name, .enumValueMissing, .error, "value not in enumerated domain"⟩ := by
    unfold checkDomain
    rw [hdom]
    simp [hviol]
  unfold checkFeature
  rw [List.countP_append, List.countP_append, List.countP_append]
  have h1 : (checkType sp fs).toList.countP
      (fun a => decide (a.feature = sp.name ∧ a.kind = .enumValueMissing)) = 0 := by
    cases h : checkType sp fs with
    | none => rfl
    | some a => simp [List.countP_cons, (checkType_kind sp fs a h).2]
  have h2 : (checkPresence sp fs).toList.countP
      (fun a => decide (a.feature = sp.name ∧ a.kind = .enumValueMissing)) = 0 := by
    cases h : checkPresence sp fs with
    | none => rfl
    | some a => simp [List.countP_cons, (checkPresence_kind sp fs a h).2]
  have h4 : (checkShape sp fs).toList.countP
      (fun a => decide (a.feature = sp.name ∧ a.kind = .enumValueMissing)) = 0 := by
    cases h : checkShape sp fs with
    | none => rfl
    | some a => simp [List.countP_cons, (checkShape_kind sp fs a h).2]
  rw [h1, h2, h4, hd]
  simp [List.countP_cons]

/-- The unexpected-feature side of the comparator contributes no
domain-membership anomaly. -/
theorem countP_unexpected_side (stats : List FeatureStats) (sch : Schema)
    (opts : ValidationOptions) (sp : FeatureSpec) :
    (stats.filterMap fun fs =>
      match lookupSpec sch fs.name with
      | none =>
        some (⟨fs.name, .unexpectedFeature, opts.unexpectedSeverity,
          "unexpected feature"⟩ : Anomaly)
      | some _ => none).countP
      (fun a => decide (a.feature = sp.name ∧ a.kind = .enumValueMissing)) = 0 := by
  apply List.countP_eq_zero.mpr
  intro a ha
  rcases List.mem_filterMap.mp ha with ⟨fs, _, hsome⟩
  have hk : a.kind = .unexpectedFeature := by
    revert hsome
    split
    · intro hh
      cases hh
      rfl
    · intro hh
      cases hh
  simp [hk]

/-- Sum of counts over a name-distinct feature list when exactly the named
feature counts one. -/
theorem sum_map_single (g : FeatureSpec → ℕ) (l : List FeatureSpec) (sp : FeatureSpec)
    (hnd : (l.map FeatureSpec.name).Nodup) (hmem : sp ∈ l) (h1 : g sp = 1)
    (h0 : ∀ x, x.name ≠ sp.name → g x = 0) :
    (l.map g).sum = 1 := by
  induction l with
  | nil => cases hmem
  | cons a rest ih =>
    rw [List.map_cons, List.nodup_cons] at hnd
    rw [List.map_cons, List.sum_cons]
    rcases List.mem_cons.mp hmem with rfl | hmem'
    · have hz : (rest.map g).sum = 0 := by
        apply List.sum_eq_zero
        intro y hy
        rcases List.mem_map.mp hy with ⟨x, hx, rfl⟩
        apply h0
        intro he
        exact hnd.1 (he ▸ List.mem_map_of_mem FeatureSpec.name hx)
      rw [h1, hz]
    · have hga : g a = 0 := by
        apply h0
        intro he
        exact hnd.1 (he ▸ List.mem_map_of_mem FeatureSpec.name hmem')
      rw [hga, ih hnd.2 hmem']

/-- C7: a feature present in both inputs whose observed categorical values
include at least one value outside the enumerated domain of the schema
contributes exactly one domain-membership anomaly to the comparator output
(one per offending feature, not one per offending value). -/
theorem one_domain_anomaly_per_offending_feature
    (stats : List FeatureStats) (sch : Schema) (opts : ValidationOptions)
    (sp : FeatureSpec) (fs : FeatureStats) (vs : List String)
    (hnd : (sch.features.map FeatureSpec.name).Nodup)
    (hsp : sp ∈ sch.features)
    (hfs : lookupStats stats sp.name = some fs)
    (hdom : sp.domain = some (.enumDomain vs))
    (hviol : fs.observedValues.all (fun v => decide (v ∈ vs)) = false) :
    (validate_statistics stats sch opts).countP
      (fun a => decide (a.feature = sp.name ∧ a.kind = .enumValueMissing)) = 1 := by
  unfold validate_statistics
  rw [List.countP_append, countP_flatMap_eq_sum, countP_unexpected_side, Nat.add_zero]
  apply sum_map_single _ sch.features sp hnd hsp
  · simp only [hfs]
    exact countP_checkFeature_enum sp fs vs hdom hviol
  · intro x hx
    cases h : lookupStats stats x.name with
    | none =>
      simp only [h]
      simp [List.countP_cons]
    | some fsx =>
      simp only [h]
      exact countP_checkFeature_other sp x fsx hx

/-- Witness for C7: statistics observing the value green against a schema
whose enumerated domain is red/blue yield exactly one domain anomaly. -/
theorem one_domain_anomaly_per_offending_feature_witness :
    (validate_statistics enumViolStats enumSchema defaultValidationOptions).countP
      (fun a => decide (a.feature = (enumSchema.features.head (by decide)).name ∧
        a.kind = .enumValueMissing)) = 1 :=
  one_domain_anomaly_per_offending_feature enumViolStats enumSchema
    defaultValidationOptions (enumSchema.features.head (by decide))
    (enumViolStats.head (by decide)) ["red", "blue"]
    (by decide) (by decide) (by decide) (by decide) (by decide)

/-! ### Failure policy of the aggregator -/

theorem runGen_foldl (g : CombinerGen) (batches : List Column)
    (s : AccumulatorState g.kind) (ws : List Warning) :
    batches.foldl
      (fun acc c =>
        if g.canProcess c then (AddBatch g.kind acc.1 c, acc.2)
        else (acc.1, acc.2 ++ [skipWarning g]))
      (s, ws) =
    (Merge g.kind s (accumulate g.kind (batches.filter g.canProcess)),
      ws ++ List.replicate (batches.filter (fun c => !g.canProcess c)).length
        (skipWarning g)) := by
  induction batches generalizing s ws with
  | nil => simp [accumulate, merge_empty]
  | cons c cs ih =>
    by_cases hc : g.canProcess c
    · rw [List.foldl_cons, if_pos hc, ih,
        List.filter_cons_of_pos (by simp [hc]), List.filter_cons_of_neg (by simp [hc]),
        accumulate_cons]
      simp [AddBatch, merge_assoc]
    · rw [List.foldl_cons, if_neg hc, ih,
        List.filter_cons_of_neg (by simp [hc]), List.filter_cons_of_pos (by simp [hc])]
      simp [List.replicate_succ]

/-- C9: a batch one generator cannot process is skipped for that generator
only, with one soft warning recorded per skipped batch; the run is total
(one result per generator is always produced), and a generator that can
process every batch yields the complete accumulation with no warnings. -/
theorem skip_failed_batches_soft_warning (g : CombinerGen) (batches : List Column) :
    runGen g batches =
      (accumulate g.kind (batches.filter g.canProcess),
        List.replicate (batches.filter (fun c => !g.canProcess c)).length
          (skipWarning g)) ∧
    (∀ gens : List CombinerGen, g ∈ gens →
      (⟨g, runGen g batches⟩ :
        (g : CombinerGen) × (AccumulatorState g.kind × List Warning)) ∈
        runAll gens batches) ∧
    ((∀ c ∈ batches, g.canProcess c = true) →
      runGen g batches = (accumulate g.kind batches, [])) := by
  have hrun : runGen g batches =
      (accumulate g.kind (batches.filter g.canProcess),
        List.replicate (batches.filter (fun c => !g.canProcess c)).length
          (skipWarning g)) := by
    unfold runGen
    rw [runGen_foldl]
    simp [empty_merge]
  refine ⟨hrun, ?_, ?_⟩
  · intro gens hg
    unfold runAll
    exact List.mem_map_of_mem _ hg
  · intro hall
    rw [hrun]
    have h1 : batches.filter g.canProcess = batches := List.filter_eq_self.mpr hall
    have h2 : batches.filter (fun c => !g.canProcess c) = [] := by
      apply List.filter_eq_nil_iff.mpr
      intro c hc
      simp [hall c hc]
    rw [h1, h2]
    rfl

/-- A generator that processes only short batches, used by the C9 witness. -/
def shortBatchGen : CombinerGen :=
  ⟨"basic_numeric", "age", .numericBasic, fun c => c.length ≤ 2⟩

/-- Witness for C9: a generator absorbing every batch of a concrete run
yields the full accumulation and records no warning. -/
theorem skip_failed_batches_soft_warning_witness :
    runGen shortBatchGen [[some (.num 3)], [none, some (.num 5)]] =
      (accumulate shortBatchGen.kind [[some (.num 3)], [none, some (.num 5)]], []) ∧
    (⟨shortBatchGen, runGen shortBatchGen [[some (.num 3)], [none, some (.num 5)]]⟩ :
        (g : CombinerGen) × (AccumulatorState g.kind × List Warning)) ∈
      runAll [shortBatchGen] [[some (.num 3)], [none, some (.num 5)]] :=
  ⟨(skip_failed_batches_soft_warning shortBatchGen
      [[some (.num 3)], [none, some (.num 5)]]).2.2 (by decide),
   (skip_failed_batches_soft_warning shortBatchGen
      [[some (.num 3)], [none, some (.num 5)]]).2.1 [shortBatchGen] (by simp)⟩

/-! ### The package surface -/

/-- C10: the init module binds a fixed public name set, every binding is a
re-export from a source module (the body consists of import statements
only, so the module performs no computation of its own), and the surface
includes the record-decoding entry points DecodeCSV and TFExampleDecoder
and the schema persistence entry points load_schema_text and
write_schema_text. -/
theorem init_module_reexport_surface :
    publicNames =
      ["GenerateStatistics", "infer_schema", "validate_statistics", "DecodeCSV",
       "TFExampleDecoder", "CombinerStatsGenerator", "TransformStatsGenerator",
       "StatsOptions", "display_anomalies", "display_schema", "visualize_statistics",
       "get_domain", "get_feature", "load_schema_text", "set_domain",
       "write_schema_text", "generate_statistics_from_csv",
       "generate_statistics_from_dataframe", "generate_statistics_from_tfrecord",
       "load_statistics", "__version__"] ∧
    "DecodeCSV" ∈ publicNames ∧
    "TFExampleDecoder" ∈ publicNames ∧
    "load_schema_text" ∈ publicNames ∧
    "write_schema_text" ∈ publicNames ∧
    (∀ n ∈ publicNames, ∃ stmt ∈ initModuleBody, stmt.exportedName = n) := by
  refine ⟨rfl, by decide, by decide, by decide, by decide, ?_⟩
  intro n hn
  rcases List.mem_map.mp hn with ⟨stmt, hstmt, rfl⟩
  exact ⟨stmt, hstmt, rfl⟩

/-- Witness for C10: the DecodeCSV binding arises from a re-export. -/
theorem init_module_reexport_surface_witness :
    ∃ stmt ∈ initModuleBody, stmt.exportedName = "DecodeCSV" :=
  init_module_reexport_surface.2.2.2.2.2 "DecodeCSV" (by decide)

end TFDV
